import Mathlib

/-!
Shallow embedding of the warpage data pipeline
(src/data_loader.py, src/warpage_statistics.py, src/statistics.py).

Modelling conventions:
* A grid cell is `Option ℚ`: `none` is the missing marker (numpy NaN after
  sentinel substitution), `some v` a real measurement. Python floats are
  modelled as rationals; every concrete value appearing in the claims is
  exactly representable, so float rounding does not affect any statement.
* The raw text file is modelled at token level: a file is a list of lines,
  each line a list of tokens, and a token is `Option ℚ` where `none` stands
  for a token on which float parsing fails. An unreadable file (I/O error)
  is the `none` case of `Option (List (List Token))`.
* numpy reductions over an empty axis (`np.all` of nothing) are `true`,
  matching `List.all` on `[]`.
-/

namespace Warpage

/-- A grid cell after loading: `none` models numpy NaN (the missing marker). -/
abbrev Cell := Option ℚ

/-- A measurement grid as produced by the loader: list of rows of cells. -/
abbrev Grid := List (List Cell)

/-- A raw numeric matrix, before sentinel substitution (all cells parsed). -/
abbrev RawGrid := List (List ℚ)

/-- A raw text token: `none` models a token that fails float parsing. -/
abbrev Token := Option ℚ

/-- The fixed artifact list of load_data_from_file:
invalid_values = [-4000, 9999.0, -9999.0, 99999.0, -99999.0]. -/
def invalidValues : List ℚ := [-4000, 9999, -9999, 99999, -99999]

/-- Membership in the sentinel list (numpy elementwise equality test). -/
def isSentinel (x : ℚ) : Bool := invalidValues.contains x

/-- Row of all zeros, as in np.all(data_array == 0, axis=1) for one row. -/
def rowAllZero (r : List ℚ) : Bool := r.all (fun x => x == 0)

/-- Remove all-zero rows: data_array[nonzero_row_mask, :]. -/
def removeZeroRows (m : RawGrid) : RawGrid := m.filter (fun r => !rowAllZero r)

/-- Number of columns of a matrix, numpy style (length of the first row;
0 for an empty matrix). -/
def gridWidth {α : Type} (m : List (List α)) : ℕ := ((m.head?).map List.length).getD 0

/-- Rectangularity: every row has the length of the first row. numpy array
construction fails on jagged input. -/
def rectRows {α : Type} (m : List (List α)) : Bool := m.all (fun r => r.length == gridWidth m)

/-- Column j consists of zeros only: np.all(data_array == 0, axis=0) at j.
Out-of-range reads default to 0; the loader only evaluates this on
rectangular matrices at j below the width. -/
def colAllZero (m : RawGrid) (j : ℕ) : Bool := m.all (fun r => r.getD j 0 == 0)

/-- Indices of the columns kept by the nonzero-column mask. -/
def keptCols (m : RawGrid) : List ℕ :=
  (List.range (gridWidth m)).filter (fun j => !colAllZero m j)

/-- Remove all-zero columns: data_array[:, nonzero_col_mask]. -/
def removeZeroCols (m : RawGrid) : RawGrid :=
  m.map (fun r => (keptCols m).map (fun j => r.getD j 0))

/-- Replace every sentinel occurrence by the missing marker:
np.where(data_array == invalid_val, np.nan, data_array) over the list. -/
def substituteSentinels (m : RawGrid) : Grid :=
  m.map (fun r => r.map (fun x => if isSentinel x then none else some x))

/-- The cleaning applied by load_data_from_file after parsing: one pass of
all-zero-row removal, then one pass of all-zero-column removal. -/
def cleanRaw (m : RawGrid) : RawGrid := removeZeroCols (removeZeroRows m)

/-- Parse one line of tokens; fails if any token fails float parsing. -/
def seqRow : List Token → Option (List ℚ)
  | [] => some []
  | none :: _ => none
  | some x :: ts => (seqRow ts).map (fun xs => x :: xs)

/-- Parse all lines; fails if any line has an unparseable token. -/
def seqLines : List (List Token) → Option RawGrid
  | [] => some []
  | l :: ls =>
    match seqRow l with
    | none => none
    | some r => (seqLines ls).map (fun rs => r :: rs)

/-- load_data_from_file (src/data_loader.py lines 12-67). The argument is
the file content (`none` = I/O error), already split into lines and
whitespace tokens. Parse failure, jagged rows (numpy raises on
inhomogeneous input) and the empty line list (axis error) are caught by
the surrounding try/except and yield `none`; otherwise the matrix is
cleaned and sentinel values become the missing marker. -/
def loadDataFromFile (content : Option (List (List Token))) : Option Grid :=
  match content with
  | none => none
  | some lines =>
    match seqLines lines with
    | none => none
    | some m =>
      if m.isEmpty then none
      else if !rectRows m then none
      else some (substituteSentinels (cleanRaw m))

/-!  Statistics engine  -/

/-- The valid (non-missing) values of a grid, row-major. -/
def validValues (g : Grid) : List ℚ := g.flatten.filterMap id

/-- np.nanmin over a value list: `none` when no valid value exists. -/
def listMin : List ℚ → Option ℚ
  | [] => none
  | x :: xs => some (xs.foldl min x)

/-- np.nanmax over a value list: `none` when no valid value exists. -/
def listMax : List ℚ → Option ℚ
  | [] => none
  | x :: xs => some (xs.foldl max x)

/-- Shape of a grid, numpy style (rows, cols). -/
def gridShape (g : Grid) : ℕ × ℕ := (g.length, gridWidth g)

/-- The statistics record returned by calculate_statistics. An `Option ℚ`
field is `none` exactly when the Python value is NaN. The std field is
represented by its square stdSq (the mean of squared deviations), since
the square root leaves ℚ; NaN-ness and equality of records are unchanged
by this encoding because squaring is injective on the nonnegative reals. -/
structure StatRecord where
  min : Option ℚ
  max : Option ℚ
  mean : Option ℚ
  stdSq : Option ℚ
  shape : ℕ × ℕ
  range : Option ℚ
deriving DecidableEq, Repr

end Warpage

namespace PyStatistics

open Warpage

/-- calculate_statistics of src/statistics.py (lines 9-39): nan-safe
min/max/mean/std over the valid values, shape of the full grid, and
range recomputed as nanmax minus nanmin; all-NaN record when no valid
value exists. -/
def calculate_statistics (g : Grid) : StatRecord :=
  match validValues g with
  | [] =>
    { min := none, max := none, mean := none, stdSq := none,
      shape := gridShape g, range := none }
  | x :: xs =>
    let mn := xs.foldl min x
    let mx := xs.foldl max x
    let n : ℚ := ((x :: xs).length : ℚ)
    let mu := (x :: xs).sum / n
    { min := some mn, max := some mx, mean := some mu,
      stdSq := some (((x :: xs).map (fun v => (v - mu) ^ 2)).sum / n),
      shape := gridShape g, range := some (mx - mn) }

end PyStatistics

namespace WarpageStatistics

open Warpage

/-- calculate_statistics of src/warpage_statistics.py (lines 10-41); the
body is the same, line for line, as the one in src/statistics.py. -/
def calculate_statistics (g : Grid) : StatRecord :=
  match validValues g with
  | [] =>
    { min := none, max := none, mean := none, stdSq := none,
      shape := gridShape g, range := none }
  | x :: xs =>
    let mn := xs.foldl min x
    let mx := xs.foldl max x
    let n : ℚ := ((x :: xs).length : ℚ)
    let mu := (x :: xs).sum / n
    { min := some mn, max := some mx, mean := some mu,
      stdSq := some (((x :: xs).map (fun v => (v - mu) ^ 2)).sum / n),
      shape := gridShape g, range := some (mx - mn) }

/-- find_optimal_color_range (src/warpage_statistics.py lines 44-68): the
collection is the list of dictionary values; absent grids (None) and
grids without valid values contribute nothing; otherwise the Python
min/max of the collected per-grid nanmin/nanmax lists, with default
(0, 1) when the lists are empty. -/
def find_optimal_color_range (folderData : List (Option Grid)) : ℚ × ℚ :=
  let mins := folderData.filterMap (fun od => od.bind (fun g => listMin (validValues g)))
  let maxs := folderData.filterMap (fun od => od.bind (fun g => listMax (validValues g)))
  match mins, maxs with
  | m :: ms, mM :: mMs => (ms.foldl min m, mMs.foldl max mM)
  | _, _ => (0, 1)

end WarpageStatistics

namespace Warpage

/-!  Region extractor  -/

/-- Python int() conversion of a rational: truncation toward zero. -/
def pyInt (q : ℚ) : ℤ := q.num.tdiv q.den

/-- extract_center_region (src/data_loader.py lines 70-101). Slicing
a[s:e] is take e then drop s; for fractions at most 1 the four slice
offsets are nonnegative, so the toNat conversion is exact (Python
negative-index wraparound cannot occur there). -/
def extract_center_region (g : Grid) (rowFraction colFraction : ℚ) : Grid :=
  if rowFraction = 1 ∧ colFraction = 1 then g
  else
    let nRows : ℚ := (g.length : ℚ)
    let nCols : ℚ := (gridWidth g : ℚ)
    let rowMargin := (1 - rowFraction) / 2
    let colMargin := (1 - colFraction) / 2
    let rowStart := (pyInt (nRows * rowMargin)).toNat
    let rowEnd := (pyInt (nRows * (1 - rowMargin))).toNat
    let colStart := (pyInt (nCols * colMargin)).toNat
    let colEnd := (pyInt (nCols * (1 - colMargin))).toNat
    ((g.take rowEnd).drop rowStart).map (fun r => (r.take colEnd).drop colStart)

/-!  Batch orchestrator: discovery and identifier assignment  -/

/-- A Python str modelled as its character list, so that every name
operation is structurally computable. -/
abbrev FileName := List Char

/-- Python str.endswith as a suffix test on character lists. -/
def strEndsWith (s suffixStr : FileName) : Bool := suffixStr.isSuffixOf s

/-- The configured original-file suffix pattern, config.py FILE_PATTERNS. -/
def origSuffix : FileName := ['@', '_', 'O', 'R', 'I', '.', 't', 'x', 't']

/-- The configured corrected-file suffix pattern, config.py FILE_PATTERNS. -/
def corrSuffix : FileName := ['@', '.', 't', 'x', 't']

/-- find_data_files (src/data_loader.py lines 104-141) at the name level:
filter the directory listing by the configured suffix pattern (corrected
files must not match the original pattern) and sort for consistent
ordering. Python list.sort is a stable comparison sort, modelled by the
stable insertionSort on the lexicographic order of character lists. The
os.path.join folder prepending and the os.path.basename stripping at
the consumer cancel, so file names are kept as they are. -/
def find_data_files (files : List FileName) (useOriginal : Bool) : List FileName :=
  let target :=
    if useOriginal then
      files.filter (fun f => strEndsWith f origSuffix)
    else
      files.filter (fun f => strEndsWith f corrSuffix && !(strEndsWith f origSuffix))
  List.insertionSort (fun a b => a ≤ b) target

/-- The identifier format f"File_{n:02d}" (src/data_loader.py line 310,
src/web_server.py line 229): zero-padded to at least two digits. -/
def fileId (n : ℕ) : FileName :=
  ['F', 'i', 'l', 'e', '_'] ++ (if n < 10 then ['0'] ++ Nat.toDigits 10 n else Nat.toDigits 10 n)

/-- Identifier assignment of process_batch_files (src/data_loader.py lines
298-314): results are inserted as the workers complete, and each gets
file_id File_{len(folder_data)+1:02d}, so ids follow the order in which
files complete. The argument is that completion order (the order in
which as_completed yields the successfully loaded files), an arbitrary
permutation of the submitted list. The sequential paths
(src/web_server.py lines 227-229, src/web_gui.py lines 114-116) are the
special case where the order is discovery order itself. -/
def assignIds (completionOrder : List FileName) : List (FileName × FileName) :=
  completionOrder.enum.map (fun p => (fileId (p.1 + 1), p.2))

end Warpage

namespace Warpage

/-- Aggregation of every valid value of every present grid of a collection,
used to state the global color-scale property. -/
def allValid (folderData : List (Option Grid)) : List ℚ :=
  ((folderData.filterMap id).map validValues).flatten

/-- A cell that still carries a sentinel magnitude. -/
def sentinelCell (c : Cell) : Bool :=
  match c with
  | some v => isSentinel v
  | none => false

/-- Row of a loaded grid consisting only of (non-missing) zeros. -/
def rowAllZeroC (r : List Cell) : Bool := r.all (fun c => c == some 0)

/-- Column j of a loaded grid consisting only of (non-missing) zeros. -/
def colAllZeroC (g : Grid) (j : ℕ) : Bool := g.all (fun r => r.getD j none == some 0)

end Warpage

namespace Warpage

/-- C10: the two duplicate implementations of the statistics engine,
calculate_statistics in src/statistics.py and calculate_statistics in
src/warpage_statistics.py, return identical records on every grid. -/
theorem calculate_statistics_duplicates_agree :
    ∀ g : Grid, PyStatistics.calculate_statistics g = WarpageStatistics.calculate_statistics g :=
  fun _ => rfl

/-- C5: on any grid with at least one valid value, the reported range is
exactly the reported max minus the reported min, both coming from the
same ignoring-missing reduction. -/
theorem stats_range_eq_max_sub_min (g : Grid) (h : validValues g ≠ []) :
    ∃ mx mn, (WarpageStatistics.calculate_statistics g).max = some mx ∧
      (WarpageStatistics.calculate_statistics g).min = some mn ∧
      (WarpageStatistics.calculate_statistics g).range = some (mx - mn) := by
  cases hv : validValues g with
  | nil => exact absurd hv h
  | cons x xs =>
    refine ⟨xs.foldl max x, xs.foldl min x, ?_, ?_, ?_⟩ <;>
      simp [WarpageStatistics.calculate_statistics, hv]

/-- Witness for C5 at a concrete grid with a missing entry. -/
theorem stats_range_eq_max_sub_min_instance :
    validValues [[some 5, none], [some 1, some 2]] ≠ [] ∧
    ∃ mx mn,
      (WarpageStatistics.calculate_statistics [[some 5, none], [some 1, some 2]]).max = some mx ∧
      (WarpageStatistics.calculate_statistics [[some 5, none], [some 1, some 2]]).min = some mn ∧
      (WarpageStatistics.calculate_statistics [[some 5, none], [some 1, some 2]]).range
        = some (mx - mn) :=
  ⟨by decide, stats_range_eq_max_sub_min _ (by decide)⟩

/-- C6: on a grid with zero valid values the statistics record carries the
undefined marker in min, max, mean, std and range, while shape is still
the shape of the grid, and no error is raised (the function is total). -/
theorem stats_all_missing_undefined (g : Grid) (h : validValues g = []) :
    WarpageStatistics.calculate_statistics g =
      { min := none, max := none, mean := none, stdSq := none,
        shape := gridShape g, range := none } := by
  simp [WarpageStatistics.calculate_statistics, h]

/-- Witness for C6 at a concrete all-missing grid of shape (2, 1). -/
theorem stats_all_missing_undefined_instance :
    validValues [[none], [none]] = [] ∧
    WarpageStatistics.calculate_statistics [[none], [none]] =
      { min := none, max := none, mean := none, stdSq := none,
        shape := (2, 1), range := none } :=
  ⟨by decide, stats_all_missing_undefined _ (by decide)⟩

end Warpage

namespace Warpage

/-- Truncation toward zero agrees with the floor on nonnegative rationals;
this is the only regime the extractor meets for fractions at most 1. -/
theorem pyInt_eq_floor {q : ℚ} (h : 0 ≤ q) : pyInt q = ⌊q⌋ := by
  rw [Rat.floor_def]
  exact Int.tdiv_eq_ediv (Rat.num_nonneg.mpr h) (Int.natCast_nonneg _)

/-- C2 counterexample: for a 5-row grid and row fraction 1/2 the floor
margin is 1, but the extractor keeps rows 1 and 2 only, so the trailing
margin is 2 and the claimed symmetric-margin slice (rows 1 to 3) is not
what the code returns. -/
theorem extract_center_unequal_margins :
    (⌊(5 : ℚ) * ((1 - 1 / 2) / 2)⌋).toNat = 1 ∧
    extract_center_region [[some 1], [some 2], [some 3], [some 4], [some 5]] (1 / 2) 1
      = [[some 2], [some 3]] ∧
    ([[some 2], [some 3]] : Grid) ≠ [[some 2], [some 3], [some 4]] := by
  refine ⟨by norm_num, ?_, by decide⟩
  norm_num [extract_center_region, pyInt, gridWidth]
  decide

/-- C2 amended: for retention fractions in (0, 1] on a rectangular grid,
the extractor returns the contiguous slice from the floor of dim times
margin (inclusive) to the floor of dim times (1 minus margin)
(exclusive), independently on rows and columns; the leading margin is
the floor-truncated one, while the trailing margin is the dimension
minus the floor of dim times (1 minus margin), which can exceed it by
one. -/
theorem extract_center_region_slice (g : Grid) (rf cf : ℚ)
    (hrect : rectRows g = true)
    (h1 : 0 < rf) (h2 : rf ≤ 1) (h3 : 0 < cf) (h4 : cf ≤ 1) :
    extract_center_region g rf cf =
      ((g.take (⌊(g.length : ℚ) * (1 - (1 - rf) / 2)⌋).toNat).drop
          (⌊(g.length : ℚ) * ((1 - rf) / 2)⌋).toNat).map
        (fun r => (r.take (⌊(gridWidth g : ℚ) * (1 - (1 - cf) / 2)⌋).toNat).drop
          (⌊(gridWidth g : ℚ) * ((1 - cf) / 2)⌋).toNat) := by
  have hfr : (0 : ℚ) ≤ (1 - rf) / 2 := by linarith
  have hfc : (0 : ℚ) ≤ (1 - cf) / 2 := by linarith
  have hfr2 : (0 : ℚ) ≤ 1 - (1 - rf) / 2 := by linarith
  have hfc2 : (0 : ℚ) ≤ 1 - (1 - cf) / 2 := by linarith
  have hlen : ∀ r ∈ g, List.length r = gridWidth g := by
    intro r hr
    exact beq_iff_eq.mp ((List.all_eq_true.mp hrect) r hr)
  rw [extract_center_region]
  split
  · next hcond =>
    obtain ⟨hrf, hcf⟩ := hcond
    subst hrf
    subst hcf
    norm_num [Int.floor_natCast, Int.toNat_natCast]
    have hmap : List.map (fun r => List.take (gridWidth g) r) g = List.map id g :=
      List.map_congr_left (fun r hr => by rw [← hlen r hr]; exact List.take_length r)
    rw [hmap, List.map_id]
  · simp only [pyInt_eq_floor (mul_nonneg (Nat.cast_nonneg _) hfr),
      pyInt_eq_floor (mul_nonneg (Nat.cast_nonneg _) hfc),
      pyInt_eq_floor (mul_nonneg (Nat.cast_nonneg _) hfr2),
      pyInt_eq_floor (mul_nonneg (Nat.cast_nonneg _) hfc2)]

/-- Witness for C2 amended on a concrete 2 by 2 grid with both fractions
equal to 1/2. -/
theorem extract_center_region_slice_instance :
    rectRows ([[some 1, some 2], [some 3, some 4]] : Grid) = true ∧
    (0 : ℚ) < 1 / 2 ∧ (1 / 2 : ℚ) ≤ 1 ∧
    extract_center_region [[some 1, some 2], [some 3, some 4]] (1 / 2) (1 / 2) =
      ((([[some 1, some 2], [some 3, some 4]] : Grid).take
            (⌊(([[some 1, some 2], [some 3, some 4]] : Grid).length : ℚ)
                * (1 - (1 - 1 / 2) / 2)⌋).toNat).drop
          (⌊(([[some 1, some 2], [some 3, some 4]] : Grid).length : ℚ)
              * ((1 - 1 / 2) / 2)⌋).toNat).map
        (fun r =>
          (r.take (⌊(gridWidth ([[some 1, some 2], [some 3, some 4]] : Grid) : ℚ)
              * (1 - (1 - 1 / 2) / 2)⌋).toNat).drop
            (⌊(gridWidth ([[some 1, some 2], [some 3, some 4]] : Grid) : ℚ)
                * ((1 - 1 / 2) / 2)⌋).toNat) :=
  ⟨by decide, by norm_num, by norm_num,
    extract_center_region_slice _ _ _ (by decide) (by norm_num) (by norm_num)
      (by norm_num) (by norm_num)⟩

end Warpage

namespace Warpage

/-- C1 counterexample: on the fixed directory listing (b@_ORI.txt,
a@_ORI.txt) the discovered list is (a@_ORI.txt, b@_ORI.txt); both orders
below are completion orders the worker pool can produce (permutations of
the discovered list), yet they yield different file_id assignments, so
the file_id to filename mapping of the concurrent batch path is not a
function of the directory listing alone. -/
theorem batch_file_id_not_run_invariant :
    ([['a', '@', '_', 'O', 'R', 'I', '.', 't', 'x', 't'],
      ['b', '@', '_', 'O', 'R', 'I', '.', 't', 'x', 't']] : List FileName).Perm
      (find_data_files
        [['b', '@', '_', 'O', 'R', 'I', '.', 't', 'x', 't'],
         ['a', '@', '_', 'O', 'R', 'I', '.', 't', 'x', 't']] true) ∧
    ([['b', '@', '_', 'O', 'R', 'I', '.', 't', 'x', 't'],
      ['a', '@', '_', 'O', 'R', 'I', '.', 't', 'x', 't']] : List FileName).Perm
      (find_data_files
        [['b', '@', '_', 'O', 'R', 'I', '.', 't', 'x', 't'],
         ['a', '@', '_', 'O', 'R', 'I', '.', 't', 'x', 't']] true) ∧
    assignIds
        [['a', '@', '_', 'O', 'R', 'I', '.', 't', 'x', 't'],
         ['b', '@', '_', 'O', 'R', 'I', '.', 't', 'x', 't']] ≠
      assignIds
        [['b', '@', '_', 'O', 'R', 'I', '.', 't', 'x', 't'],
         ['a', '@', '_', 'O', 'R', 'I', '.', 't', 'x', 't']] :=
  ⟨by decide, by decide, by decide⟩

/-- C1 amended: discovery itself is a pure function of the listing that
returns a lexicographically sorted list, and the sequential paths
assign File_(i+1) (two-digit padded) positionally in that discovery
order, hence two sequential runs agree. For the concurrent batch pool,
any completion order (any permutation of the discovered list) gets the
same positional id list File_01, File_02, ... and carries the same
multiset of filenames, but which filename a given id maps to depends on
the completion order (see the counterexample). -/
theorem discovery_and_id_assignment (files : List FileName) (useOrig : Bool)
    (ord : List FileName) (h : ord.Perm (find_data_files files useOrig)) :
    (assignIds (find_data_files files useOrig)).map Prod.snd
      = find_data_files files useOrig ∧
    (assignIds ord).map Prod.fst = (List.range ord.length).map (fun i => fileId (i + 1)) ∧
    ((assignIds ord).map Prod.snd).Perm (find_data_files files useOrig) ∧
    (find_data_files files useOrig).Pairwise (fun a b => a ≤ b) := by
  have hsnd : ∀ l : List FileName, (assignIds l).map Prod.snd = l := by
    intro l
    simp [assignIds, List.map_map, Function.comp_def]
  refine ⟨hsnd _, ?_, ?_, ?_⟩
  · conv_rhs => rw [← List.enum_map_fst ord, List.map_map]
    simp [assignIds, List.map_map, Function.comp_def]
  · rw [hsnd ord]
    exact h
  · rw [find_data_files]
    exact List.sorted_insertionSort _ _

/-- Witness for C1 amended on a one-file listing with the identity
completion order. -/
theorem discovery_and_id_assignment_instance :
    ([['a', '@', '_', 'O', 'R', 'I', '.', 't', 'x', 't']] : List FileName).Perm
      (find_data_files [['a', '@', '_', 'O', 'R', 'I', '.', 't', 'x', 't']] true) ∧
    ((assignIds (find_data_files [['a', '@', '_', 'O', 'R', 'I', '.', 't', 'x', 't']] true)).map
        Prod.snd
      = find_data_files [['a', '@', '_', 'O', 'R', 'I', '.', 't', 'x', 't']] true ∧
    (assignIds [['a', '@', '_', 'O', 'R', 'I', '.', 't', 'x', 't']]).map Prod.fst
      = (List.range ([['a', '@', '_', 'O', 'R', 'I', '.', 't', 'x', 't']] : List FileName).length).map
          (fun i => fileId (i + 1)) ∧
    ((assignIds [['a', '@', '_', 'O', 'R', 'I', '.', 't', 'x', 't']]).map Prod.snd).Perm
      (find_data_files [['a', '@', '_', 'O', 'R', 'I', '.', 't', 'x', 't']] true) ∧
    (find_data_files [['a', '@', '_', 'O', 'R', 'I', '.', 't', 'x', 't']] true).Pairwise
      (fun a b => a ≤ b)) :=
  ⟨by decide, discovery_and_id_assignment _ _ _ (by decide)⟩

end Warpage

namespace Warpage

theorem foldl_min_bounds (l : List ℚ) : ∀ a : ℚ, l.foldl min a ≤ a ∧ ∀ x ∈ l, l.foldl min a ≤ x := by
  induction l with
  | nil => intro a; exact ⟨le_refl a, by simp⟩
  | cons y ys ih =>
    intro a
    rw [List.foldl_cons]
    refine ⟨le_trans (ih (min a y)).1 (min_le_left a y), ?_⟩
    intro x hx
    rcases List.mem_cons.mp hx with h | h
    · subst h
      exact le_trans (ih (min a x)).1 (min_le_right a x)
    · exact (ih (min a y)).2 x h

theorem foldl_min_mem (l : List ℚ) : ∀ a : ℚ, l.foldl min a ∈ a :: l := by
  induction l with
  | nil => intro a; simp
  | cons y ys ih =>
    intro a
    rw [List.foldl_cons]
    rcases List.mem_cons.mp (ih (min a y)) with h | h
    · rcases min_choice a y with hc | hc
      · rw [h, hc]; exact List.mem_cons_self _ _
      · rw [h, hc]; exact List.mem_cons_of_mem _ (List.mem_cons_self _ _)
    · exact List.mem_cons_of_mem _ (List.mem_cons_of_mem _ h)

theorem foldl_max_bounds (l : List ℚ) : ∀ a : ℚ, a ≤ l.foldl max a ∧ ∀ x ∈ l, x ≤ l.foldl max a := by
  induction l with
  | nil => intro a; exact ⟨le_refl a, by simp⟩
  | cons y ys ih =>
    intro a
    rw [List.foldl_cons]
    refine ⟨le_trans (le_max_left a y) (ih (max a y)).1, ?_⟩
    intro x hx
    rcases List.mem_cons.mp hx with h | h
    · subst h
      exact le_trans (le_max_right a x) (ih (max a x)).1
    · exact (ih (max a y)).2 x h

theorem foldl_max_mem (l : List ℚ) : ∀ a : ℚ, l.foldl max a ∈ a :: l := by
  induction l with
  | nil => intro a; simp
  | cons y ys ih =>
    intro a
    rw [List.foldl_cons]
    rcases List.mem_cons.mp (ih (max a y)) with h | h
    · rcases max_choice a y with hc | hc
      · rw [h, hc]; exact List.mem_cons_self _ _
      · rw [h, hc]; exact List.mem_cons_of_mem _ (List.mem_cons_self _ _)
    · exact List.mem_cons_of_mem _ (List.mem_cons_of_mem _ h)

theorem listMin_le {l : List ℚ} {m : ℚ} (h : listMin l = some m) : m ∈ l ∧ ∀ x ∈ l, m ≤ x := by
  cases l with
  | nil => simp [listMin] at h
  | cons x xs =>
    have hm : m = xs.foldl min x := by simpa [listMin] using h.symm
    subst hm
    refine ⟨foldl_min_mem xs x, ?_⟩
    intro z hz
    rcases List.mem_cons.mp hz with h | h
    · subst h; exact (foldl_min_bounds xs z).1
    · exact (foldl_min_bounds xs x).2 z h

theorem listMax_ge {l : List ℚ} {m : ℚ} (h : listMax l = some m) : m ∈ l ∧ ∀ x ∈ l, x ≤ m := by
  cases l with
  | nil => simp [listMax] at h
  | cons x xs =>
    have hm : m = xs.foldl max x := by simpa [listMax] using h.symm
    subst hm
    refine ⟨foldl_max_mem xs x, ?_⟩
    intro z hz
    rcases List.mem_cons.mp hz with h | h
    · subst h; exact (foldl_max_bounds xs z).1
    · exact (foldl_max_bounds xs x).2 z h

theorem mem_allValid {fd : List (Option Grid)} {x : ℚ} :
    x ∈ allValid fd ↔ ∃ g, some g ∈ fd ∧ x ∈ validValues g := by
  simp only [allValid, List.mem_flatten, List.mem_map, List.mem_filterMap, id]
  constructor
  · rintro ⟨l, ⟨g, ⟨a, ha, rfl⟩, rfl⟩, hx⟩
    exact ⟨g, ha, hx⟩
  · rintro ⟨g, hg, hx⟩
    exact ⟨validValues g, ⟨g, ⟨some g, hg, rfl⟩, rfl⟩, hx⟩

end Warpage

namespace Warpage

/-- Unfolding of find_optimal_color_range when no per-grid minimum or
maximum was collected. -/
theorem fore_eq_default (fd : List (Option Grid))
    (h1 : fd.filterMap (fun od => od.bind (fun g => listMin (validValues g))) = [])
    (h2 : fd.filterMap (fun od => od.bind (fun g => listMax (validValues g))) = []) :
    WarpageStatistics.find_optimal_color_range fd = (0, 1) := by
  simp only [WarpageStatistics.find_optimal_color_range, h1, h2]

/-- Unfolding of find_optimal_color_range when both collected lists are
nonempty. -/
theorem fore_eq_minmax (fd : List (Option Grid)) (m0 n0 : ℚ) (ms2 ns2 : List ℚ)
    (h1 : fd.filterMap (fun od => od.bind (fun g => listMin (validValues g))) = m0 :: ms2)
    (h2 : fd.filterMap (fun od => od.bind (fun g => listMax (validValues g))) = n0 :: ns2) :
    WarpageStatistics.find_optimal_color_range fd = (ms2.foldl min m0, ns2.foldl max n0) := by
  simp only [WarpageStatistics.find_optimal_color_range, h1, h2]

/-- C4: find_optimal_color_range returns the global minimum and maximum of
all valid values over all present grids; when the collection is empty,
every grid absent, or no valid value exists, it returns (0, 1). -/
theorem find_optimal_color_range_globals (fd : List (Option Grid)) :
    (allValid fd = [] → WarpageStatistics.find_optimal_color_range fd = (0, 1)) ∧
    (∀ x ∈ allValid fd,
      (WarpageStatistics.find_optimal_color_range fd).1 ≤ x ∧
      x ≤ (WarpageStatistics.find_optimal_color_range fd).2) ∧
    (allValid fd ≠ [] →
      (WarpageStatistics.find_optimal_color_range fd).1 ∈ allValid fd ∧
      (WarpageStatistics.find_optimal_color_range fd).2 ∈ allValid fd) := by
  have hmin_sound : ∀ m ∈ fd.filterMap (fun od => od.bind (fun g => listMin (validValues g))),
      ∃ g, some g ∈ fd ∧ listMin (validValues g) = some m := by
    intro m hm
    rw [List.mem_filterMap] at hm
    obtain ⟨od, hod, hbind⟩ := hm
    cases od with
    | none => simp at hbind
    | some g => exact ⟨g, hod, by simpa using hbind⟩
  have hmax_sound : ∀ m ∈ fd.filterMap (fun od => od.bind (fun g => listMax (validValues g))),
      ∃ g, some g ∈ fd ∧ listMax (validValues g) = some m := by
    intro m hm
    rw [List.mem_filterMap] at hm
    obtain ⟨od, hod, hbind⟩ := hm
    cases od with
    | none => simp at hbind
    | some g => exact ⟨g, hod, by simpa using hbind⟩
  have hmin_of_val : ∀ x ∈ allValid fd,
      ∃ mg ∈ fd.filterMap (fun od => od.bind (fun g => listMin (validValues g))), mg ≤ x := by
    intro x hx
    obtain ⟨g, hg, hvx⟩ := mem_allValid.mp hx
    cases hlm : listMin (validValues g) with
    | none =>
      cases hv : validValues g with
      | nil => rw [hv] at hvx; simp at hvx
      | cons a as => rw [hv] at hlm; simp [listMin] at hlm
    | some mg =>
      refine ⟨mg, ?_, (listMin_le hlm).2 x hvx⟩
      rw [List.mem_filterMap]
      exact ⟨some g, hg, by simpa using hlm⟩
  have hmax_of_val : ∀ x ∈ allValid fd,
      ∃ mg ∈ fd.filterMap (fun od => od.bind (fun g => listMax (validValues g))), x ≤ mg := by
    intro x hx
    obtain ⟨g, hg, hvx⟩ := mem_allValid.mp hx
    cases hlm : listMax (validValues g) with
    | none =>
      cases hv : validValues g with
      | nil => rw [hv] at hvx; simp at hvx
      | cons a as => rw [hv] at hlm; simp [listMax] at hlm
    | some mg =>
      refine ⟨mg, ?_, (listMax_ge hlm).2 x hvx⟩
      rw [List.mem_filterMap]
      exact ⟨some g, hg, by simpa using hlm⟩
  have hms_val : ∀ m ∈ fd.filterMap (fun od => od.bind (fun g => listMin (validValues g))),
      m ∈ allValid fd := by
    intro m hm
    obtain ⟨g, hg, hlm⟩ := hmin_sound m hm
    exact mem_allValid.mpr ⟨g, hg, (listMin_le hlm).1⟩
  have hmxs_val : ∀ m ∈ fd.filterMap (fun od => od.bind (fun g => listMax (validValues g))),
      m ∈ allValid fd := by
    intro m hm
    obtain ⟨g, hg, hlm⟩ := hmax_sound m hm
    exact mem_allValid.mpr ⟨g, hg, (listMax_ge hlm).1⟩
  refine ⟨?_, ?_, ?_⟩
  · intro hempty
    have h1 : fd.filterMap (fun od => od.bind (fun g => listMin (validValues g))) = [] := by
      cases hcase : fd.filterMap (fun od => od.bind (fun g => listMin (validValues g))) with
      | nil => rfl
      | cons m ms2 =>
        have hin : m ∈ fd.filterMap (fun od => od.bind (fun g => listMin (validValues g))) := by
          rw [hcase]
          exact List.mem_cons_self m ms2
        have hval := hms_val m hin
        rw [hempty] at hval
        simp at hval
    have h2 : fd.filterMap (fun od => od.bind (fun g => listMax (validValues g))) = [] := by
      cases hcase : fd.filterMap (fun od => od.bind (fun g => listMax (validValues g))) with
      | nil => rfl
      | cons m ms2 =>
        have hin : m ∈ fd.filterMap (fun od => od.bind (fun g => listMax (validValues g))) := by
          rw [hcase]
          exact List.mem_cons_self m ms2
        have hval := hmxs_val m hin
        rw [hempty] at hval
        simp at hval
    exact fore_eq_default fd h1 h2
  · intro x hx
    obtain ⟨mg, hmg, hle⟩ := hmin_of_val x hx
    obtain ⟨mM, hmM, hge⟩ := hmax_of_val x hx
    cases hcase : fd.filterMap (fun od => od.bind (fun g => listMin (validValues g))) with
    | nil => rw [hcase] at hmg; simp at hmg
    | cons m0 ms2 =>
      cases hcase2 : fd.filterMap (fun od => od.bind (fun g => listMax (validValues g))) with
      | nil => rw [hcase2] at hmM; simp at hmM
      | cons n0 ns2 =>
        rw [fore_eq_minmax fd m0 n0 ms2 ns2 hcase hcase2]
        constructor
        · rw [hcase] at hmg
          rcases List.mem_cons.mp hmg with h | h
          · exact le_trans (h ▸ (foldl_min_bounds ms2 mg).1) hle
          · exact le_trans ((foldl_min_bounds ms2 m0).2 mg h) hle
        · rw [hcase2] at hmM
          rcases List.mem_cons.mp hmM with h | h
          · exact le_trans hge (h ▸ (foldl_max_bounds ns2 mM).1)
          · exact le_trans hge ((foldl_max_bounds ns2 n0).2 mM h)
  · intro hne
    cases hval : allValid fd with
    | nil => exact absurd hval hne
    | cons x rest =>
      have hx : x ∈ allValid fd := by rw [hval]; exact List.mem_cons_self x rest
      obtain ⟨mg, hmg, -⟩ := hmin_of_val x hx
      obtain ⟨mM, hmM, -⟩ := hmax_of_val x hx
      cases hcase : fd.filterMap (fun od => od.bind (fun g => listMin (validValues g))) with
      | nil => rw [hcase] at hmg; simp at hmg
      | cons m0 ms2 =>
        cases hcase2 : fd.filterMap (fun od => od.bind (fun g => listMax (validValues g))) with
        | nil => rw [hcase2] at hmM; simp at hmM
        | cons n0 ns2 =>
          rw [fore_eq_minmax fd m0 n0 ms2 ns2 hcase hcase2, ← hval]
          constructor
          · refine hms_val _ ?_
            rw [hcase]
            exact foldl_min_mem ms2 m0
          · refine hmxs_val _ ?_
            rw [hcase2]
            exact foldl_max_mem ns2 n0

/-- Witness for C4 on a concrete collection with an absent grid, an
all-missing grid and two grids with valid values. -/
theorem find_optimal_color_range_globals_instance :
    allValid [some [[some 3, none]], none, some [[none]], some [[some (-2), some 7]]] ≠ [] ∧
    ((WarpageStatistics.find_optimal_color_range
        [some [[some 3, none]], none, some [[none]], some [[some (-2), some 7]]]).1
      ∈ allValid [some [[some 3, none]], none, some [[none]], some [[some (-2), some 7]]] ∧
    (WarpageStatistics.find_optimal_color_range
        [some [[some 3, none]], none, some [[none]], some [[some (-2), some 7]]]).2
      ∈ allValid [some [[some 3, none]], none, some [[none]], some [[some (-2), some 7]]]) :=
  ⟨by decide,
    (find_optimal_color_range_globals
      [some [[some 3, none]], none, some [[none]], some [[some (-2), some 7]]]).2.2 (by decide)⟩

end Warpage

namespace Warpage

/-- Zero is not a sentinel magnitude. -/
theorem isSentinel_zero : isSentinel 0 = false := by decide

/-- In a rectangular matrix every row has the common width. -/
theorem length_eq_width_of_mem {α : Type} {m : List (List α)} (h : rectRows m = true)
    {r : List α} (hr : r ∈ m) : r.length = gridWidth m :=
  beq_iff_eq.mp ((List.all_eq_true.mp h) r hr)

/-- A line parses exactly to the value list it encodes. -/
theorem seqRow_eq_some {row : List Token} {r : List ℚ} (h : seqRow row = some r) :
    row = r.map some := by
  induction row generalizing r with
  | nil =>
    simp [seqRow] at h
    subst h
    rfl
  | cons t ts ih =>
    cases t with
    | none => simp [seqRow] at h
    | some x =>
      simp only [seqRow, Option.map_eq_some'] at h
      obtain ⟨xs, hxs, hr⟩ := h
      subst hr
      simp [ih hxs]

/-- Parsed content is exactly the encoded token matrix. -/
theorem seqLines_eq_some {lines : List (List Token)} {m : RawGrid}
    (h : seqLines lines = some m) : lines = m.map (fun r => r.map some) := by
  induction lines generalizing m with
  | nil =>
    simp [seqLines] at h
    subst h
    rfl
  | cons l ls ih =>
    cases hl : seqRow l with
    | none => rw [seqLines, hl] at h; simp at h
    | some r =>
      rw [seqLines, hl] at h
      simp only [Option.map_eq_some'] at h
      obtain ⟨rs, hrs, hm⟩ := h
      subst hm
      simp [seqRow_eq_some hl, ih hrs]

/-- Encoding a value row as tokens parses back to it. -/
theorem seqRow_map_some (r : List ℚ) : seqRow (r.map some) = some r := by
  induction r with
  | nil => rfl
  | cons x xs ih => simp [seqRow, ih]

/-- Encoding a value matrix as token lines parses back to it. -/
theorem seqLines_map_some (m : RawGrid) :
    seqLines (m.map (fun r => r.map some)) = some m := by
  induction m with
  | nil => rfl
  | cons r rs ih => simp [seqLines, seqRow_map_some, ih]

/-- A line with an unparseable token fails to parse. -/
theorem seqRow_eq_none {row : List Token} (h : none ∈ row) : seqRow row = none := by
  induction row with
  | nil => simp at h
  | cons t ts ih =>
    cases t with
    | none => rfl
    | some x =>
      rcases List.mem_cons.mp h with h2 | h2
      · simp at h2
      · rw [seqRow, ih h2]
        rfl

/-- Content with any unparseable token fails to parse. -/
theorem seqLines_eq_none {lines : List (List Token)}
    (h : ∃ l ∈ lines, none ∈ l) : seqLines lines = none := by
  induction lines with
  | nil => simp at h
  | cons l ls ih =>
    obtain ⟨l2, hl2, hn⟩ := h
    rcases List.mem_cons.mp hl2 with h2 | h2
    · subst h2
      rw [seqLines, seqRow_eq_none hn]
    · rw [seqLines, ih ⟨l2, h2, hn⟩]
      cases seqRow l <;> rfl

/-- Encoding values as tokens does not change the width. -/
theorem gridWidth_map_some (m : RawGrid) :
    gridWidth (m.map (fun r => r.map some)) = gridWidth m := by
  cases m <;> simp [gridWidth]

/-- Encoding values as tokens does not change rectangularity. -/
theorem rectRows_map_some (m : RawGrid) :
    rectRows (m.map (fun r => r.map some)) = rectRows m := by
  have h1 : ∀ (w : ℕ) (l : List (List ℚ)),
      ((l.map (fun r => r.map some)).all (fun r => r.length == w))
        = l.all (fun r => r.length == w) := by
    intro w l
    induction l with
    | nil => rfl
    | cons a as iha => simp [iha]
  calc rectRows (m.map (fun r => r.map some))
      = (m.map (fun r => r.map some)).all
          (fun r => r.length == gridWidth (m.map (fun r => r.map some))) := rfl
    _ = (m.map (fun r => r.map some)).all (fun r => r.length == gridWidth m) := by
        rw [gridWidth_map_some]
    _ = m.all (fun r => r.length == gridWidth m) := h1 _ m
    _ = rectRows m := rfl

/-- An all-zero row holds no sentinel. -/
theorem countP_sentinel_zero_row {r : List ℚ} (h : rowAllZero r = true) :
    r.countP isSentinel = 0 := by
  refine List.countP_eq_zero.mpr ?_
  intro x hx
  have hx0 : x = 0 := beq_iff_eq.mp ((List.all_eq_true.mp h) x hx)
  subst hx0
  simp [isSentinel_zero]

/-- Removing all-zero rows does not change the sentinel count. -/
theorem countP_sentinel_removeZeroRows (m : RawGrid) :
    (removeZeroRows m).flatten.countP isSentinel = m.flatten.countP isSentinel := by
  induction m with
  | nil => rfl
  | cons r rs ih =>
    cases h : rowAllZero r with
    | true =>
      have hstep : removeZeroRows (r :: rs) = removeZeroRows rs := by
        simp [removeZeroRows, List.filter_cons, h]
      rw [hstep, List.flatten_cons, List.countP_append, countP_sentinel_zero_row h, ih]
      simp [removeZeroRows]
    | false =>
      have hstep : removeZeroRows (r :: rs) = r :: removeZeroRows rs := by
        simp [removeZeroRows, List.filter_cons, h]
      rw [hstep, List.flatten_cons, List.flatten_cons, List.countP_append,
        List.countP_append, ih]

/-- Dropping positions whose image cannot satisfy the predicate does not
change the count. -/
theorem countP_filter_map_positions (P : ℚ → Bool) (f : ℕ → ℚ) (q : ℕ → Bool)
    (l : List ℕ) (h : ∀ j ∈ l, q j = false → P (f j) = false) :
    ((l.filter q).map f).countP P = (l.map f).countP P := by
  induction l with
  | nil => rfl
  | cons j js ih =>
    have ihq : ∀ j2 ∈ js, q j2 = false → P (f j2) = false :=
      fun j2 hj2 => h j2 (List.mem_cons_of_mem _ hj2)
    cases hq : q j with
    | true =>
      have hf : (j :: js).filter q = j :: js.filter q := by simp [List.filter_cons, hq]
      rw [hf, List.map_cons, List.map_cons, List.countP_cons, List.countP_cons, ih ihq]
    | false =>
      have hf : (j :: js).filter q = js.filter q := by simp [List.filter_cons, hq]
      rw [hf, List.map_cons, List.countP_cons, ih ihq, h j (List.mem_cons_self j js) hq]
      simp

/-- Reading the first k positions of a row by index reconstructs its
k-element front. -/
theorem range_map_getD (r : List ℚ) (k : ℕ) (h : k ≤ r.length) :
    (List.range k).map (fun j => r.getD j 0) = r.take k := by
  induction r generalizing k with
  | nil =>
    have hk : k = 0 := Nat.le_zero.mp h
    subst hk
    rfl
  | cons x xs ih =>
    cases k with
    | zero => rfl
    | succ k2 =>
      rw [List.range_succ_eq_map, List.map_cons, List.map_map]
      have hcomp : ((fun j => (x :: xs).getD j 0) ∘ Nat.succ) = fun j => xs.getD j 0 := by
        funext j
        simp [Function.comp, List.getD_cons_succ]
      rw [hcomp, List.getD_cons_zero, ih k2 (Nat.le_of_succ_le_succ h), List.take_succ_cons]

end Warpage

namespace Warpage

/-- Selecting the kept columns of a member row preserves its sentinel
count: a dropped column reads 0 in every row, and 0 is no sentinel. -/
theorem countP_sentinel_selectCols {m2 : RawGrid} {r : List ℚ} (hr : r ∈ m2)
    (hlen : r.length = gridWidth m2) :
    ((keptCols m2).map (fun j => r.getD j 0)).countP isSentinel
      = r.countP isSentinel := by
  rw [keptCols,
    countP_filter_map_positions isSentinel (fun j => r.getD j 0) _ _ ?hdrop,
    range_map_getD r (gridWidth m2) (le_of_eq hlen.symm), ← hlen, List.take_length]
  case hdrop =>
    intro j hj hq
    cases hc : colAllZero m2 j with
    | false => rw [hc] at hq; simp at hq
    | true =>
      have h0 : r.getD j 0 = 0 := beq_iff_eq.mp ((List.all_eq_true.mp hc) r hr)
      show isSentinel (r.getD j 0) = false
      rw [h0, isSentinel_zero]

/-- Removing all-zero columns of a rectangular matrix preserves the
sentinel count. -/
theorem countP_sentinel_removeZeroCols (m2 : RawGrid) (hrect : rectRows m2 = true) :
    (removeZeroCols m2).flatten.countP isSentinel = m2.flatten.countP isSentinel := by
  rw [removeZeroCols, List.countP_flatten, List.countP_flatten, List.map_map]
  congr 1
  refine List.map_congr_left (fun r hr => ?_)
  show ((keptCols m2).map (fun j => r.getD j 0)).countP isSentinel = r.countP isSentinel
  exact countP_sentinel_selectCols hr (length_eq_width_of_mem hrect hr)

/-- Row filtering preserves rectangularity. -/
theorem rectRows_removeZeroRows {m2 : RawGrid} (h : rectRows m2 = true) :
    rectRows (removeZeroRows m2) = true := by
  cases hm : removeZeroRows m2 with
  | nil => rfl
  | cons r0 rs =>
    refine List.all_eq_true.mpr ?_
    intro r hr
    have hr2 : r ∈ m2 := by
      refine List.mem_of_mem_filter (p := fun r => !rowAllZero r) ?_
      show r ∈ removeZeroRows m2
      rw [hm]
      exact hr
    have h0 : r0 ∈ m2 := by
      refine List.mem_of_mem_filter (p := fun r => !rowAllZero r) ?_
      show r0 ∈ removeZeroRows m2
      rw [hm]
      exact List.mem_cons_self r0 rs
    have hw : gridWidth (r0 :: rs) = r0.length := by simp [gridWidth]
    refine beq_iff_eq.mpr ?_
    rw [hw, length_eq_width_of_mem h hr2, length_eq_width_of_mem h h0]

/-- Sentinel substitution in one row turns exactly the sentinel entries
into the missing marker. -/
theorem countP_isNone_subst_row (r : List ℚ) :
    ((r.map (fun x => if isSentinel x then none else some x)).countP
        (fun c => c.isNone)) = r.countP isSentinel := by
  rw [List.countP_map]
  refine List.countP_congr ?_
  intro x hx
  cases hs : isSentinel x <;> simp [Function.comp, hs]

/-- After substitution no cell carries a sentinel magnitude. -/
theorem countP_sentinelCell_subst_row (r : List ℚ) :
    ((r.map (fun x => if isSentinel x then none else some x)).countP sentinelCell) = 0 := by
  rw [List.countP_map, List.countP_eq_zero]
  intro x hx
  cases hs : isSentinel x <;> simp [Function.comp, sentinelCell, hs]

/-- Substitution over a whole matrix: missing cells count the sentinels of
the input, and no sentinel magnitude survives. -/
theorem countP_subst (m2 : RawGrid) :
    ((substituteSentinels m2).flatten.countP (fun c => c.isNone)
        = m2.flatten.countP isSentinel) ∧
      (substituteSentinels m2).flatten.countP sentinelCell = 0 := by
  constructor
  · rw [substituteSentinels, List.countP_flatten, List.countP_flatten, List.map_map]
    congr 1
    refine List.map_congr_left (fun r hr => ?_)
    exact countP_isNone_subst_row r
  · rw [substituteSentinels, List.countP_flatten, List.map_map]
    refine List.sum_eq_zero ?_
    intro x hx
    obtain ⟨r, hr, hxr⟩ := List.mem_map.mp hx
    rw [← hxr]
    exact countP_sentinelCell_subst_row r

/-- The sentinel-valued tokens of encoded content are the sentinel entries
of the value matrix. -/
theorem countP_sentinelCell_encode (m2 : RawGrid) :
    (m2.map (fun r => r.map some)).flatten.countP sentinelCell
      = m2.flatten.countP isSentinel := by
  rw [List.countP_flatten, List.countP_flatten, List.map_map]
  congr 1
  refine List.map_congr_left (fun r hr => ?_)
  show (r.map some).countP sentinelCell = r.countP isSentinel
  rw [List.countP_map]
  refine List.countP_congr ?_
  intro x hx
  simp [sentinelCell, Function.comp]

/-- C3: if the raw content of a successfully loaded file carries sentinel
magnitudes at exactly N positions, the returned grid has exactly N
missing cells and no cell equal to a sentinel magnitude: substitution is
exhaustive, and all-zero row/column removal never drops a sentinel
occurrence (dropped cells are all zero, and zero is no sentinel). -/
theorem sentinel_substitution_exhaustive (lines : List (List Token)) (g : Grid) (N : ℕ)
    (hload : loadDataFromFile (some lines) = some g)
    (hN : lines.flatten.countP sentinelCell = N) :
    g.flatten.countP (fun c => c.isNone) = N ∧ g.flatten.countP sentinelCell = 0 := by
  simp only [loadDataFromFile] at hload
  cases hsl : seqLines lines with
  | none => rw [hsl] at hload; simp at hload
  | some m =>
    rw [hsl] at hload
    have hload2 : (if m.isEmpty = true then none
        else if (!rectRows m) = true then none
        else some (substituteSentinels (cleanRaw m))) = some g := hload
    by_cases he : m.isEmpty = true
    · rw [if_pos he] at hload2
      simp at hload2
    · rw [if_neg he] at hload2
      by_cases hre : rectRows m = true
      · rw [if_neg (by simp [hre])] at hload2
        have hg : g = substituteSentinels (cleanRaw m) := (Option.some.inj hload2).symm
        subst hg
        have hcount : m.flatten.countP isSentinel = N := by
          rw [seqLines_eq_some hsl, countP_sentinelCell_encode] at hN
          exact hN
        refine ⟨?_, (countP_subst (cleanRaw m)).2⟩
        rw [(countP_subst (cleanRaw m)).1, cleanRaw,
          countP_sentinel_removeZeroCols _ (rectRows_removeZeroRows hre),
          countP_sentinel_removeZeroRows, hcount]
      · have hfalse : rectRows m = false := by
          cases h2 : rectRows m
          · rfl
          · exact absurd h2 hre
        rw [if_pos (by rw [hfalse]; rfl)] at hload2
        simp at hload2

/-- Witness for C3 on a concrete file with one sentinel token. -/
theorem sentinel_substitution_exhaustive_instance :
    loadDataFromFile (some [[some (-4000), some 1], [some 0, some 2]])
      = some [[none, some 1], [some 0, some 2]] ∧
    ([[some (-4000), some 1], [some 0, some 2]] :
        List (List Token)).flatten.countP sentinelCell = 1 ∧
    (([[none, some 1], [some 0, some 2]] : Grid).flatten.countP (fun c => c.isNone) = 1 ∧
      ([[none, some 1], [some 0, some 2]] : Grid).flatten.countP sentinelCell = 0) :=
  ⟨by decide, by decide,
    sentinel_substitution_exhaustive [[some (-4000), some 1], [some 0, some 2]]
      [[none, some 1], [some 0, some 2]] 1 (by decide) (by decide)⟩

end Warpage

namespace Warpage

/-- An all-zero row reads 0 at every index (in range or defaulted). -/
theorem getD_zero_of_rowAllZero {r : List ℚ} (h : rowAllZero r = true) (j : ℕ) :
    r.getD j 0 = 0 := by
  rcases Nat.lt_or_ge j r.length with hlt | hge
  · rw [List.getD_eq_get?, List.get?_eq_get hlt]
    exact beq_iff_eq.mp ((List.all_eq_true.mp h) _ (List.get_mem r j hlt))
  · rw [List.getD_eq_get?, List.get?_eq_none.mpr hge]
    rfl

/-- C8: the loader is a total function into an optional grid: every call
returns either a grid or the no-grid marker, an unreadable file (I/O
error) yields no grid, any line with a token that fails float parsing
yields no grid, and jagged content yields no grid; no branch escapes the
surrounding try/except. -/
theorem loader_absorbs_errors (content : Option (List (List Token))) :
    ((∃ g, loadDataFromFile content = some g) ∨ loadDataFromFile content = none) ∧
    (content = none → loadDataFromFile content = none) ∧
    (∀ lines, content = some lines → (∃ l ∈ lines, none ∈ l) →
      loadDataFromFile content = none) ∧
    (∀ lines, content = some lines → rectRows lines = false →
      loadDataFromFile content = none) := by
  refine ⟨?_, ?_, ?_, ?_⟩
  · cases h : loadDataFromFile content with
    | none => exact Or.inr rfl
    | some g => exact Or.inl ⟨g, rfl⟩
  · intro h
    subst h
    rfl
  · intro lines hc hbad
    subst hc
    simp only [loadDataFromFile]
    rw [seqLines_eq_none hbad]
  · intro lines hc hjag
    subst hc
    simp only [loadDataFromFile]
    cases hsl : seqLines lines with
    | none => rfl
    | some m =>
      have hm : rectRows m = false := by
        rw [seqLines_eq_some hsl, rectRows_map_some] at hjag
        exact hjag
      show (if m.isEmpty = true then none
        else if (!rectRows m) = true then none
        else some (substituteSentinels (cleanRaw m))) = none
      rw [hm]
      by_cases he : m.isEmpty = true
      · rw [if_pos he]
      · rw [if_neg he]
        simp

/-- Witness for C8: a line with an unparseable token and a jagged file
both load to the no-grid marker. -/
theorem loader_absorbs_errors_instance :
    loadDataFromFile (some [[some 1, none]]) = none ∧
    loadDataFromFile (some [[some 1], [some 2, some 3]]) = none :=
  ⟨(loader_absorbs_errors (some [[some 1, none]])).2.2.1 [[some 1, none]] rfl
      ⟨[some 1, none], List.mem_cons_self _ _, by decide⟩,
    (loader_absorbs_errors (some [[some 1], [some 2, some 3]])).2.2.2
      [[some 1], [some 2, some 3]] rfl (by decide)⟩

end Warpage

namespace Warpage

/-- C7: loading a file that parses to a matrix whose first row is the only
all-zero row and whose last column is the only all-zero column returns
the matrix with exactly that row and that column removed, every other
value unchanged positionally (stated for sentinel-free values, so that
substitution is the identity); rows are removed before columns, one
pass each. -/
theorem zero_border_row_col_removed (r0 : List ℚ) (rest : RawGrid) (w : ℕ)
    (hrect : rectRows (r0 :: rest) = true)
    (hw : gridWidth (r0 :: rest) = w)
    (hw1 : 1 ≤ w)
    (hr0 : rowAllZero r0 = true)
    (hrest : ∀ r ∈ rest, rowAllZero r = false)
    (hlast : colAllZero (r0 :: rest) (w - 1) = true)
    (hcols : ∀ j ∈ List.range (w - 1), colAllZero (r0 :: rest) j = false)
    (hsent : ∀ x ∈ (r0 :: rest).flatten, isSentinel x = false) :
    loadDataFromFile (some ((r0 :: rest).map (fun r => r.map some)))
      = some ((rest.map (fun r => r.dropLast)).map (fun r => r.map some)) := by
  simp only [loadDataFromFile, seqLines_map_some]
  show (if (r0 :: rest).isEmpty = true then none
    else if (!rectRows (r0 :: rest)) = true then none
    else some (substituteSentinels (cleanRaw (r0 :: rest))))
    = some ((rest.map (fun r => r.dropLast)).map (fun r => r.map some))
  rw [if_neg (by simp), if_neg (by simp [hrect])]
  refine congrArg some ?_
  have h1 : removeZeroRows (r0 :: rest) = rest := by
    have h2 : List.filter (fun r => !rowAllZero r) rest = rest :=
      List.filter_eq_self.mpr (fun r hr => by rw [hrest r hr]; rfl)
    simp [removeZeroRows, List.filter_cons, hr0, h2]
  have hclean : cleanRaw (r0 :: rest) = rest.map (fun r => r.dropLast) := by
    rw [cleanRaw, h1]
    cases hrst : rest with
    | nil => rfl
    | cons s rest2 =>
      have hsmem : s ∈ r0 :: rest := by
        rw [hrst]
        exact List.mem_cons_of_mem _ (List.mem_cons_self s rest2)
      have hslen : s.length = w := by
        rw [← hw]
        exact length_eq_width_of_mem hrect hsmem
      have hwrest : gridWidth (s :: rest2) = w := by simp [gridWidth, hslen]
      have hmemw : ∀ r ∈ s :: rest2, r.length = w := by
        intro r hr
        have hrm : r ∈ r0 :: rest := by
          rw [hrst]
          exact List.mem_cons_of_mem _ hr
        rw [← hw]
        exact length_eq_width_of_mem hrect hrm
      have hcolrest_last : colAllZero (s :: rest2) (w - 1) = true := by
        refine List.all_eq_true.mpr ?_
        intro r hr
        refine (List.all_eq_true.mp hlast) r ?_
        refine List.mem_cons_of_mem _ ?_
        rw [hrst]
        exact hr
      have hcolrest : ∀ j ∈ List.range (w - 1), colAllZero (s :: rest2) j = false := by
        intro j hj
        obtain ⟨r, hrm, hne⟩ := List.all_eq_false.mp (hcols j hj)
        refine List.all_eq_false.mpr ?_
        rcases List.mem_cons.mp hrm with h | h
        · exfalso
          apply hne
          rw [h, getD_zero_of_rowAllZero hr0 j]
          simp
        · refine ⟨r, ?_, hne⟩
          rw [hrst] at h
          exact h
      have hkept : keptCols (s :: rest2) = List.range (w - 1) := by
        rw [keptCols, hwrest]
        conv_lhs => rw [show w = (w - 1) + 1 from by omega, List.range_succ]
        rw [List.filter_append]
        have ha : List.filter (fun j => !colAllZero (s :: rest2) j) (List.range (w - 1))
            = List.range (w - 1) :=
          List.filter_eq_self.mpr (fun j hj => by rw [hcolrest j hj]; rfl)
        have hb : List.filter (fun j => !colAllZero (s :: rest2) j) [w - 1] = [] := by
          simp [List.filter_cons, hcolrest_last]
        rw [ha, hb, List.append_nil]
      rw [removeZeroCols, hkept]
      refine List.map_congr_left (fun r hr => ?_)
      have hrw : r.length = w := hmemw r hr
      rw [range_map_getD r (w - 1) (by omega), List.dropLast_eq_take, hrw]
  rw [hclean, substituteSentinels]
  refine List.map_congr_left (fun r hr => ?_)
  refine List.map_congr_left (fun x hx => ?_)
  obtain ⟨r2, hr2, hrr⟩ := List.mem_map.mp hr
  have hx2 : x ∈ r2 := (List.dropLast_sublist r2).subset (by rw [hrr]; exact hx)
  have hs : isSentinel x = false :=
    hsent x (List.mem_flatten.mpr ⟨r2, List.mem_cons_of_mem _ hr2, hx2⟩)
  rw [if_neg (by simp [hs])]

/-- Witness for C7 on a concrete 3 by 3 matrix with all-zero first row and
all-zero last column. -/
theorem zero_border_row_col_removed_instance :
    loadDataFromFile
        (some (([[0, 0, 0], [1, 2, 0], [3, 4, 0]] : RawGrid).map (fun r => r.map some)))
      = some ((([[1, 2, 0], [3, 4, 0]] : RawGrid).map (fun r => r.dropLast)).map
          (fun r => r.map some)) :=
  zero_border_row_col_removed [0, 0, 0] [[1, 2, 0], [3, 4, 0]] 3 (by decide) (by decide)
    (by decide) (by decide) (by decide) (by decide) (by decide) (by decide)

end Warpage

namespace Warpage

/-- The substituted image of a nonzero value is never the zero cell. -/
theorem subst_ne_zero_cell {x : ℚ} (hx : x ≠ 0) :
    ((if isSentinel x then none else some x) == some 0) = false := by
  cases hs : isSentinel x <;> simp [hs, hx]

/-- C9: a grid returned by the loader has no all-zero row and no all-zero
column: one pass of row removal followed by one pass of column removal
is already a fixed point. Removing an all-zero row cannot zero out a
kept column (the kept row witnessing the column survives), and removing
an all-zero column cannot zero out a kept row (the witnessing entry sits
in a kept column). -/
theorem loaded_grid_no_zero_row_col (content : Option (List (List Token))) (g : Grid)
    (h : loadDataFromFile content = some g) :
    (∀ r ∈ g, rowAllZeroC r = false) ∧
    (∀ j ∈ List.range (gridWidth g), colAllZeroC g j = false) := by
  cases content with
  | none => simp [loadDataFromFile] at h
  | some lines =>
    simp only [loadDataFromFile] at h
    cases hsl : seqLines lines with
    | none => rw [hsl] at h; simp at h
    | some m =>
      rw [hsl] at h
      have h2 : (if m.isEmpty = true then none
          else if (!rectRows m) = true then none
          else some (substituteSentinels (cleanRaw m))) = some g := h
      by_cases he : m.isEmpty = true
      · rw [if_pos he] at h2
        simp at h2
      · rw [if_neg he] at h2
        by_cases hre : rectRows m = true
        · rw [if_neg (by simp [hre])] at h2
          have hg : g = substituteSentinels (cleanRaw m) := (Option.some.inj h2).symm
          subst hg
          have hrect2 : rectRows (removeZeroRows m) = true := rectRows_removeZeroRows hre
          constructor
          · -- no all-zero row
            intro r hr
            rw [substituteSentinels, cleanRaw] at hr
            obtain ⟨row, hrow, hrsub⟩ := List.mem_map.mp hr
            rw [removeZeroCols] at hrow
            obtain ⟨r0, hr0m, hsel⟩ := List.mem_map.mp hrow
            have hr0filt := List.mem_filter.mp hr0m
            have hr0z : rowAllZero r0 = false := by
              cases h3 : rowAllZero r0
              · rfl
              · rw [h3] at hr0filt
                simp at hr0filt
            obtain ⟨x, hxr0, hxne⟩ := List.all_eq_false.mp hr0z
            have hxne2 : x ≠ 0 := by simpa using hxne
            obtain ⟨j0, hj0⟩ := List.mem_iff_get?.mp hxr0
            obtain ⟨hj0lt, -⟩ := List.get?_eq_some.mp hj0
            have hlen0 : r0.length = gridWidth (removeZeroRows m) :=
              length_eq_width_of_mem hrect2 hr0m
            have hget : r0.getD j0 0 = x := by
              rw [List.getD_eq_get?, hj0]
              rfl
            have hcolz : colAllZero (removeZeroRows m) j0 = false := by
              refine List.all_eq_false.mpr ⟨r0, hr0m, ?_⟩
              rw [hget]
              simpa using hxne2
            have hj0kept : j0 ∈ keptCols (removeZeroRows m) := by
              rw [keptCols, List.mem_filter, List.mem_range]
              exact ⟨hlen0 ▸ hj0lt, by rw [hcolz]; rfl⟩
            have hxmem : x ∈ (keptCols (removeZeroRows m)).map (fun j => r0.getD j 0) := by
              refine List.mem_map.mpr ⟨j0, hj0kept, ?_⟩
              exact hget
            refine List.all_eq_false.mpr ?_
            refine ⟨if isSentinel x then none else some x, ?_, ?_⟩
            · rw [← hrsub, ← hsel]
              exact List.mem_map.mpr ⟨x, hxmem, rfl⟩
            · rw [subst_ne_zero_cell hxne2]
              simp
          · -- no all-zero column
            intro j hj
            rw [List.mem_range] at hj
            cases hm2 : removeZeroRows m with
            | nil =>
              rw [substituteSentinels, cleanRaw, removeZeroCols, hm2] at hj
              simp [gridWidth] at hj
            | cons s m2 =>
              have hwg : gridWidth (substituteSentinels (cleanRaw m))
                  = (keptCols (removeZeroRows m)).length := by
                rw [substituteSentinels, cleanRaw, removeZeroCols, hm2]
                simp [gridWidth]
              rw [hwg] at hj
              obtain ⟨j1, hj1⟩ : ∃ j1, (keptCols (removeZeroRows m)).get? j = some j1 :=
                ⟨_, List.get?_eq_get hj⟩
              have hj1mem : j1 ∈ keptCols (removeZeroRows m) := List.get?_mem hj1
              have hj1filt := List.mem_filter.mp (by rw [keptCols] at hj1mem; exact hj1mem)
              have hcolz : colAllZero (removeZeroRows m) j1 = false := by
                cases h3 : colAllZero (removeZeroRows m) j1
                · rfl
                · rw [h3] at hj1filt
                  simp at hj1filt
              obtain ⟨r0, hr0m, hr0ne⟩ := List.all_eq_false.mp hcolz
              have hvne : r0.getD j1 0 ≠ 0 := by simpa using hr0ne
              refine List.all_eq_false.mpr ?_
              refine ⟨((keptCols (removeZeroRows m)).map (fun j2 => r0.getD j2 0)).map
                  (fun x => if isSentinel x then none else some x), ?_, ?_⟩
              · rw [substituteSentinels, cleanRaw, removeZeroCols]
                exact List.mem_map.mpr ⟨_, List.mem_map.mpr ⟨r0, hr0m, rfl⟩, rfl⟩
              · have hget : (((keptCols (removeZeroRows m)).map (fun j2 => r0.getD j2 0)).map
                    (fun x => if isSentinel x then none else some x)).get? j
                    = some (if isSentinel (r0.getD j1 0) then none else some (r0.getD j1 0)) := by
                  rw [List.get?_map, List.get?_map, hj1]
                  rfl
                rw [List.getD_eq_get?, hget]
                simp only [Option.getD_some]
                rw [subst_ne_zero_cell hvne]
                simp
        · have hfalse : rectRows m = false := by
            cases h3 : rectRows m
            · rfl
            · exact absurd h3 hre
          rw [if_pos (by rw [hfalse]; rfl)] at h2
          simp at h2

/-- Witness for C9: the loaded grid of a concrete file, its first row and
its first column are not all-zero. -/
theorem loaded_grid_no_zero_row_col_instance :
    rowAllZeroC [some 1, some 2] = false ∧ colAllZeroC [[some 1, some 2], [some 0, some 3]] 0 = false :=
  ⟨(loaded_grid_no_zero_row_col (some [[some 1, some 2], [some 0, some 3]])
      [[some 1, some 2], [some 0, some 3]] (by decide)).1 [some 1, some 2] (by decide),
    (loaded_grid_no_zero_row_col (some [[some 1, some 2], [some 0, some 3]])
      [[some 1, some 2], [some 0, some 3]] (by decide)).2 0 (by decide)⟩

end Warpage
